import Mathlib

/-!
Verification of the `adt` documentation generator (files
`docs/python/syntax.py`, `docs/python/templates.py`, `docs/python/parser.py`).

Strings of the Python program are modelled as lists of characters
(`Str`).  The call `HTML.encode('utf-8').format(...)` in `templates.py`
is modelled at the level of the character sequence: `encode` is the
identity on this abstraction, and Python's `str.format` positional
substitution is modelled faithfully by `pyFormat`, including its error
behaviour (an `IndexError` for a replacement field without an argument,
and a `ValueError` for a stray single brace, are both modelled as `none`).
-/

abbrev Str := List Char

/-- The tag table `_JS.TAGS` of `syntax.py`: a mapping from category name
to a mapping from identifier to literal marker string, transcribed entry
by entry from the source. -/
def TAGS : List (String × List (String × String)) := [
  ("block", [
    ("START", "/**"),
    ("END", "*/")]),
  ("flag", [
    ("ignore", "@ignore"),
    ("private", "@private"),
    ("constructor", "@constructor"),
    ("deprecated", "@deprecated")]),
  ("label", [
    ("module", "@module"),
    ("namespace", "@namespace"),
    ("class", "@class"),
    ("method", "@method"),
    ("memberOf", "@memberOf"),
    ("methodOf", "@methodOf"),
    ("requires", "@requires"),
    ("override", "@override"),
    ("type", "@type")]),
  ("description", [
    ("description", "@description"),
    ("copyright", "@copyright"),
    ("author", "@author")]),
  ("value", [
    ("var", "@var")]),
  ("unnamed_value_desc", [
    ("returns", "@returns")]),
  ("named_value_desc", [
    ("param", "@param"),
    ("property", "@property")])]

/-- `_JS.IDS` of `syntax.py`: the identifiers designated as node kinds. -/
def IDS : List String := ["module", "namespace", "class", "method", "var", "property"]

/-- The identifier-to-marker mapping of one category of the tag table. -/
def tagsOf (cat : String) : List (String × String) :=
  (List.lookup cat TAGS).getD []

/-- The identifiers of one category of the tag table. -/
def idsOf (cat : String) : List String :=
  (tagsOf cat).map Prod.fst

/-- `CSS` of `templates.py`: the base style block. -/
def CSS : Str := "".data

/-- `HTML` of `templates.py`: the fixed page skeleton, with five `\x7b\x7d`
replacement fields (style, title, logo, navigation, body). -/
def HTML : Str := "<!DOCTYPE html><html lang=\x27en\x27><head><meta charset=\x27UTF-8\x27><meta name=\x27viewport\x27 content=\x27width=device-width, initial-scale=1.0\x27><link href=\x27https://fonts.googleapis.com/css?family=Montserrat:200,300,700\x27 rel=\x27stylesheet\x27><link rel=\x27stylesheet\x27 type=\x27text/css\x27 href=\x27https://cdn.rawgit.com/synesenom/whiteprint/master/wp.min.css\x27><style>\x7b\x7d</style><title>\x7b\x7d</title></head><body><input type=\x27checkbox\x27 id=\x27menu\x27><label for=\x27menu\x27 id=\x27open\x27>☰</label><aside><div class=\x27logo\x27>\x7b\x7d</div><nav><div>\x7b\x7d</div></nav></aside><main>\x7b\x7d<label for=\x27menu\x27 id=\x27exit\x27></label></main></body></html>".data

/-- Python's positional `str.format`: scan the template, replace each
`\x7b\x7d` replacement field by the next argument; `\x7b\x7b` and `\x7d\x7d`
are literal-brace escapes; a replacement field with no argument left
(`IndexError`) and a stray single brace (`ValueError`) yield `none`.
Surplus arguments are ignored, as in Python. -/
def pyFormat : Str → List Str → Option Str
  | [], _ => some []
  | c :: rest, args =>
    if c = '\x7b' then
      match rest, args with
      | c2 :: rest2, args =>
        if c2 = '\x7b' then (pyFormat rest2 args).map (fun t => '\x7b' :: t)
        else if c2 = '\x7d' then
          match args with
          | a :: args2 => (pyFormat rest2 args2).map (fun t => a ++ t)
          | [] => none
        else none
      | [], _ => none
    else if c = '\x7d' then
      match rest, args with
      | c2 :: rest2, args =>
        if c2 = '\x7d' then (pyFormat rest2 args).map (fun t => '\x7d' :: t) else none
      | [], _ => none
    else (pyFormat rest args).map (fun t => c :: t)

/-- `html(name, menu, content, style="")` of `templates.py`:
`HTML.encode('utf-8').format(CSS+style, name, name, menu, content)`.
In the source `style` is an optional argument defaulting to the empty
string; here it is passed explicitly, a call with the argument omitted
is modelled as `html name menu content []`. -/
def html (name menu content style : Str) : Option Str :=
  pyFormat HTML [CSS ++ style, name, name, menu, content]

/-- Skeleton segment before the style slot. -/
def SEG0 : Str := "<!DOCTYPE html><html lang=\x27en\x27><head><meta charset=\x27UTF-8\x27><meta name=\x27viewport\x27 content=\x27width=device-width, initial-scale=1.0\x27><link href=\x27https://fonts.googleapis.com/css?family=Montserrat:200,300,700\x27 rel=\x27stylesheet\x27><link rel=\x27stylesheet\x27 type=\x27text/css\x27 href=\x27https://cdn.rawgit.com/synesenom/whiteprint/master/wp.min.css\x27><style>".data

/-- Skeleton segment between the style slot and the title slot. -/
def SEG1 : Str := "</style><title>".data

/-- Skeleton segment between the title slot and the logo slot. -/
def SEG2 : Str := "</title></head><body><input type=\x27checkbox\x27 id=\x27menu\x27><label for=\x27menu\x27 id=\x27open\x27>☰</label><aside><div class=\x27logo\x27>".data

/-- Skeleton segment between the logo slot and the navigation slot. -/
def SEG3 : Str := "</div><nav><div>".data

/-- Skeleton segment between the navigation slot and the body slot. -/
def SEG4 : Str := "</div></nav></aside><main>".data

/-- Skeleton segment after the body slot. -/
def SEG5 : Str := "<label for=\x27menu\x27 id=\x27exit\x27></label></main></body></html>".data

set_option maxRecDepth 4000 in
/-- The skeleton is the six fixed segments with a replacement field
between each two consecutive ones. -/
theorem HTML_split :
    HTML = SEG0 ++ ['\x7b', '\x7d'] ++ SEG1 ++ ['\x7b', '\x7d'] ++ SEG2 ++
      ['\x7b', '\x7d'] ++ SEG3 ++ ['\x7b', '\x7d'] ++ SEG4 ++ ['\x7b', '\x7d'] ++ SEG5 := by
  rfl

/-- Character lists free of brace characters (format substitution copies
them verbatim). -/
def noBrace (s : Str) : Bool := s.all (fun c => !(c = '\x7b' || c = '\x7d'))

theorem pyFormat_append (seg : Str) (rest : Str) (args : List Str)
    (h : noBrace seg = true) :
    pyFormat (seg ++ rest) args = (pyFormat rest args).map (fun t => seg ++ t) := by
  induction seg with
  | nil =>
    simp
  | cons c s ih =>
    simp only [noBrace, List.all_cons, Bool.and_eq_true, Bool.not_eq_true',
      Bool.or_eq_false_iff, decide_eq_false_iff_not] at h
    obtain ⟨⟨h1, h2⟩, h3⟩ := h
    have ih2 := ih (by simpa [noBrace] using h3)
    rw [List.cons_append, pyFormat.eq_def]
    simp only []
    rw [if_neg h1, if_neg h2, ih2]
    cases pyFormat rest args <;> simp

theorem pyFormat_slot (rest : Str) (a : Str) (args : List Str) :
    pyFormat ('\x7b' :: '\x7d' :: rest) (a :: args) =
      (pyFormat rest args).map (fun t => a ++ t) := by
  simp [pyFormat]

theorem pyFormat_noBrace (seg : Str) (args : List Str) (h : noBrace seg = true) :
    pyFormat seg args = some seg := by
  have := pyFormat_append seg [] args h
  simpa [pyFormat] using this

set_option maxRecDepth 8000 in
/-- Structural form of the renderer's output: the fixed skeleton segments
with `CSS ++ style` in the style slot, the title in the title and logo
slots, and the menu and content in the navigation and body slots. -/
theorem html_eq (n m c s : Str) :
    html n m c s =
      some (SEG0 ++ (CSS ++ s) ++ SEG1 ++ n ++ SEG2 ++ n ++ SEG3 ++ m ++ SEG4 ++ c ++ SEG5) := by
  have h0 : noBrace SEG0 = true := by decide
  have h1 : noBrace SEG1 = true := by decide
  have h2 : noBrace SEG2 = true := by decide
  have h3 : noBrace SEG3 = true := by decide
  have h4 : noBrace SEG4 = true := by decide
  have h5 : noBrace SEG5 = true := by decide
  unfold html
  rw [HTML_split]
  simp only [List.append_assoc, List.cons_append, List.nil_append]
  rw [pyFormat_append _ _ _ h0, pyFormat_slot, pyFormat_append _ _ _ h1, pyFormat_slot,
    pyFormat_append _ _ _ h2, pyFormat_slot, pyFormat_append _ _ _ h3, pyFormat_slot,
    pyFormat_append _ _ _ h4, pyFormat_slot, pyFormat_noBrace _ _ h5]
  simp [List.append_assoc]

/-- Number of positions of `s` at which `pat` occurs as a contiguous
substring (positions `0 .. s.length`, counted with multiplicity). -/
def countSub (pat : Str) : Str → Nat
  | [] => if pat.isPrefixOf [] then 1 else 0
  | c :: t => (if pat.isPrefixOf (c :: t) then 1 else 0) + countSub pat t

set_option maxRecDepth 100000 in
/-- C1 fails as stated: with title `"e"` (a string that also occurs in the
fixed skeleton), the output of `html` does not contain the title exactly
twice. -/
theorem C1_counterexample :
    (html "e".data "m".data "c".data []).isSome = true ∧
    countSub "e".data ((html "e".data "m".data "c".data []).getD []) ≠ 2 := by
  decide

/-- C1 (amended): the output of `html(name, menu, content, style)` is the
fixed page skeleton with the title substituted into exactly the two title
slots (title tag and logo), and the menu and the content substituted into
exactly one slot each (navigation and body); the occurrence counts 2/1/1
need not hold verbatim when an argument also occurs elsewhere in the
page. -/
theorem C1_html_slots (n m c s : Str) :
    html n m c s =
      some (SEG0 ++ (CSS ++ s) ++ SEG1 ++ n ++ SEG2 ++ n ++ SEG3 ++ m ++ SEG4 ++ c ++ SEG5) :=
  html_eq n m c s

/-- C2: for all string arguments the renderer returns a string and never
fails: the format substitution always succeeds because the skeleton has
exactly five replacement fields and five arguments are supplied. -/
theorem C2_html_total (n m c s : Str) : ∃ out, html n m c s = some out :=
  ⟨_, html_eq n m c s⟩

/-- C5: the style slot of the page holds the base style block `CSS`
followed by the `style` argument; the base style block is empty, and with
the default argument (`style` omitted, i.e. the empty string) the style
slot content is empty. -/
theorem C5_style_slot (n m c s : Str) :
    CSS = [] ∧
    html n m c s =
      some (SEG0 ++ (CSS ++ s) ++ (SEG1 ++ n ++ SEG2 ++ n ++ SEG3 ++ m ++ SEG4 ++ c ++ SEG5)) ∧
    html n m c [] =
      some (SEG0 ++ (SEG1 ++ n ++ SEG2 ++ n ++ SEG3 ++ m ++ SEG4 ++ c ++ SEG5)) := by
  refine ⟨rfl, ?_, ?_⟩
  · rw [html_eq]
    simp [List.append_assoc]
  · rw [html_eq]
    simp [CSS, List.append_assoc]

/-- The module-level mutable state of the library: the tag table instance
`js` of `syntax.py` (its category-to-marker mappings and its node-kind
list). -/
structure LibState where
  tags : List (String × List (String × String))
  ids : List String

/-- The state after the one-time construction `js = _JS()` at import. -/
def initState : LibState := ⟨TAGS, IDS⟩

/-- `html` of `templates.py` as an operation over the library state: its
body reads only its four arguments and the module constants `HTML` and
`CSS`, and performs no assignment, so it returns the state unchanged. -/
def htmlOp (name menu content style : Str) (st : LibState) :
    Option Str × LibState :=
  (html name menu content style, st)

/-- C7: the tag table is read-only for the process lifetime: a call of the
renderer's `html`, for any arguments and from any state, leaves the
category-to-marker mappings and the node-kind list unchanged, and starting
from the initial state they still equal their construction-time values
`TAGS` and `IDS` after every call. -/
theorem C7_tag_table_readonly (n m c s : Str) (st : LibState) :
    (htmlOp n m c s st).2 = st ∧
    (htmlOp n m c s initState).2.tags = TAGS ∧
    (htmlOp n m c s initState).2.ids = IDS :=
  ⟨rfl, rfl, rfl⟩

/-- C9: the renderer is deterministic: the output component of `htmlOp`
depends only on the four arguments (and the fixed constants baked into
`html`), not on the ambient library state, so two calls with equal
arguments return equal strings. -/
theorem C9_html_deterministic (n m c s : Str) (st st2 : LibState) :
    (htmlOp n m c s st).1 = (htmlOp n m c s st2).1 :=
  rfl

/-- C3 fails as stated: `var` is designated as a node kind in `IDS` but is
not an identifier of the `label` category (its marker `@var` lives in the
`value` category). -/
theorem C3_counterexample :
    "var" ∈ IDS ∧ "var" ∉ idsOf "label" := by
  decide

/-- C3 (amended): every node-kind identifier is an identifier of some
category of the tag table, but not all of the `label` category: `module`,
`namespace`, `class` and `method` are label identifiers, while `var` is
an identifier of the `value` category and `property` of the
`named_value_desc` category. -/
theorem C3_node_kinds_in_categories :
    IDS.all (fun i => (idsOf "label").contains i || (idsOf "value").contains i ||
      (idsOf "named_value_desc").contains i) = true ∧
    IDS.filter (fun i => (idsOf "label").contains i) =
      ["module", "namespace", "class", "method"] ∧
    (idsOf "value").contains "var" = true ∧
    (idsOf "named_value_desc").contains "property" = true := by
  decide

/-- C4 fails as stated: the name `variable` does not appear in the
node-kind list; the corresponding entry is spelled `var`. -/
theorem C4_counterexample :
    "variable" ∉ IDS ∧ "var" ∈ IDS := by
  decide

/-- C4 (amended): the node-kind list contains exactly the six names
`module`, `namespace`, `class`, `method`, `var` and `property` (the
variable kind is spelled `var`, not `variable`), and no other. -/
theorem C4_node_kind_ids (x : String) :
    x ∈ IDS ↔ (x = "module" ∨ x = "namespace" ∨ x = "class" ∨ x = "method" ∨
      x = "var" ∨ x = "property") := by
  simp [IDS]

/-- C6: the flag category of the tag table contains exactly the four
identifiers `ignore`, `private`, `constructor` and `deprecated`, each
mapped to its single literal marker string and nothing else (no value
field is associated). -/
theorem C6_flag_tags :
    tagsOf "flag" = [("ignore", "@ignore"), ("private", "@private"),
      ("constructor", "@constructor"), ("deprecated", "@deprecated")] ∧
    ∀ p : String × String, p ∈ tagsOf "flag" ↔
      (p = ("ignore", "@ignore") ∨ p = ("private", "@private") ∨
       p = ("constructor", "@constructor") ∨ p = ("deprecated", "@deprecated")) := by
  have h : tagsOf "flag" = [("ignore", "@ignore"), ("private", "@private"),
      ("constructor", "@constructor"), ("deprecated", "@deprecated")] := by decide
  refine ⟨h, fun p => ?_⟩
  rw [h]
  simp

/-- C10: the label markers are not prefix-free: `method` and `methodOf`
are two distinct label identifiers and the marker `@method` is a proper
prefix of the marker `@methodOf`. -/
theorem C10_marker_proper_prefix :
    ("method", "@method") ∈ tagsOf "label" ∧
    ("methodOf", "@methodOf") ∈ tagsOf "label" ∧
    "method" ≠ "methodOf" ∧
    ("@method".data).isPrefixOf "@methodOf".data = true ∧
    "@method".data ≠ "@methodOf".data := by
  decide

/-- Whitespace characters stripped around tag values. -/
def isSpace (c : Char) : Bool := c = ' ' || c = '\t' || c = '\r'

/-- Drop leading whitespace. -/
def stripL (s : Str) : Str := s.dropWhile isSpace

/-- Modelled from the spec: §4.2 step 2 — strip leading comment decoration
(whitespace and `*`) from a line inside a block. -/
def stripDecor (s : Str) : Str := s.dropWhile (fun c => isSpace c || c = '*')

/-- Modelled from the spec: §3 — a documentable node with kind, name,
optional parent reference, description text, author/copyright text,
optional type annotation, parameter entries, optional return entry and
the set of active flags. -/
structure Node where
  kind : String
  name : Str
  parent : Option Str
  description : Str
  authorText : Str
  tyAnn : Option Str
  params : List (Str × Str × Str)
  ret : Option (Str × Str)
  flags : List String
deriving DecidableEq

/-- A fresh node of the given kind and name (all other fields empty). -/
def newNode (k : String) (nm : Str) : Node :=
  ⟨k, nm, none, [], [], none, [], none, []⟩

/-- Set a boolean flag; a second occurrence of the same marker changes
nothing. -/
def addFlag (f : String) (n : Node) : Node :=
  if n.flags.contains f then n else { n with flags := n.flags ++ [f] }

/-- Append continuation text to the description field. -/
def appendDesc (t : Str) (n : Node) : Node :=
  { n with description := if n.description.isEmpty then t else n.description ++ '\n' :: t }

/-- The marker of an identifier, searched across the categories of the tag
table. -/
def markerOf (i : String) : Option String :=
  (TAGS.map Prod.snd).foldr (fun cat acc =>
    match List.lookup i cat with
    | some mk => some mk
    | none => acc) none

/-- Modelled from the spec: §4.2 step 3 — the node-kind markers, tried
first, in the order of the node-kind list `IDS`. -/
def nodeKindMarkers : List (String × String) :=
  IDS.filterMap (fun i => (markerOf i).map (fun mk => (i, mk)))

/-- The flag markers of the tag table. -/
def flagMarkers : List (String × String) := tagsOf "flag"

/-- The parent-reference label markers (`memberOf`, `methodOf`). -/
def parentMarkers : List (String × String) :=
  (tagsOf "label").filter (fun p => p.1 = "memberOf" || p.1 = "methodOf")

/-- The description-category markers. -/
def descMarkers : List (String × String) := tagsOf "description"

/-- Match one tag marker at the start of a stripped line: the marker must
be followed by the line end or whitespace; the value is the remainder of
the line after the marker, with surrounding whitespace stripped. -/
def matchTag (mk : String) (l : Str) : Option Str :=
  if mk.data.isPrefixOf l then
    match l.drop mk.data.length with
    | [] => some []
    | d :: r => if isSpace d then some (stripL (d :: r)) else none
  else none

/-- First marker of a list matching a line, with the remainder of the
line. -/
def firstMatch (ms : List (String × String)) (l : Str) : Option (String × Str) :=
  match ms with
  | [] => none
  | (i, mk) :: rest =>
    match matchTag mk l with
    | some r => some (i, r)
    | none => firstMatch rest l

/-- Split a remainder into its first whitespace-delimited word and the
stripped rest. -/
def firstWord (s : Str) : Str × Str :=
  (s.takeWhile (fun c => !isSpace c), stripL (s.dropWhile (fun c => !isSpace c)))

/-- Modelled from the spec: §4.2 steps 6–7 — a brace-delimited type
annotation `\x7btype\x7d` at the start of a value, returning the type and the
stripped remainder; `none` when the shape does not match. -/
def parseTyped (s : Str) : Option (Str × Str) :=
  match s with
  | c :: rest =>
    if c = '\x7b' then
      match rest.dropWhile (fun d => d ≠ '\x7d') with
      | _ :: r => some (rest.takeWhile (fun d => d ≠ '\x7d'), stripL r)
      | [] => none
    else none
  | [] => none

/-- Modelled from the spec: §4.2 steps 3–7 — processing of one
decoration-stripped line inside a block, testing the registered markers in
the fixed priority order: node-kind labels first (a match starts a new
node whose name is the next word), then flags, then parent labels, then
description markers, then the type label, then `@param` and `@returns`
(whose mis-shaped values are tolerated as freeform description), then
plain text as description continuation; an unrecognized `@`-marker and a
blank line are ignored, and before any node kind is detected the line
affects nothing. -/
def processLine (l : Str) (cur : Option Node) : Option Node :=
  match firstMatch nodeKindMarkers l with
  | some (i, rest) => some (newNode i (firstWord rest).1)
  | none =>
    match cur with
    | none => none
    | some n =>
      match firstMatch flagMarkers l with
      | some (i, _) => some (addFlag i n)
      | none =>
        match firstMatch parentMarkers l with
        | some (_, rest) => some { n with parent := some (firstWord rest).1 }
        | none =>
          match firstMatch descMarkers l with
          | some (i, rest) =>
            if i = "description" then some (appendDesc rest n)
            else some { n with authorText := n.authorText ++ rest }
          | none =>
            match matchTag "@type" l with
            | some rest => some { n with tyAnn := some (firstWord rest).1 }
            | none =>
              match matchTag "@param" l with
              | some rest =>
                match parseTyped rest with
                | some (ty, r) =>
                  some { n with params := n.params ++ [(ty, (firstWord r).1, (firstWord r).2)] }
                | none => some (appendDesc rest n)
              | none =>
                match matchTag "@returns" l with
                | some rest =>
                  match parseTyped rest with
                  | some (ty, r) => some { n with ret := some (ty, r) }
                  | none => some (appendDesc rest n)
                | none =>
                  if l.head? = some '@' then some n
                  else if (stripL l).isEmpty then some n
                  else some (appendDesc l n)

/-- `pat` occurs as a contiguous substring of the second argument. -/
def containsSub (pat : Str) : Str → Bool
  | [] => pat.isPrefixOf []
  | c :: t => pat.isPrefixOf (c :: t) || containsSub pat t

/-- The block-start marker, from the `block` category of the tag table. -/
def startMarker : Str := ((List.lookup "START" (tagsOf "block")).getD "").data

/-- The block-end marker, from the `block` category of the tag table. -/
def endMarker : Str := ((List.lookup "END" (tagsOf "block")).getD "").data

/-- Split a text at newline characters into its sequence of lines. -/
def splitLines : Str → List Str
  | [] => [[]]
  | c :: t =>
    if c = '\n' then [] :: splitLines t
    else
      match splitLines t with
      | [] => [[c]]
      | l :: ls => (c :: l) :: ls

/-- Modelled from the spec: §4.2 step 8 — finalization at block end: the
accumulated node is appended to the output; a block with no detected node
kind yields no node, and a nameless node is dropped. -/
def finalize (cur : Option Node) : List Node :=
  match cur with
  | some n => if n.name.isEmpty then [] else [n]
  | none => []

/-- Modelled from the spec: §4.4 — the per-file state machine:
OUTSIDE_BLOCK until a line carries the block-start marker, IN_BLOCK until
a line carries the block-end marker (an unterminated block is finalized at
end of input), emitting finalized nodes in source order. -/
def parseLines : List Str → Bool → Option Node → List Node
  | [], false, _ => []
  | [], true, cur => finalize cur
  | l :: ls, false, _ =>
    if containsSub startMarker l then parseLines ls true none
    else parseLines ls false none
  | l :: ls, true, cur =>
    if containsSub endMarker l then finalize cur ++ parseLines ls false none
    else parseLines ls true (processLine (stripDecor l) cur)

/-- Modelled from the spec: §4.2 — `parse(sourceText)` of the comment
block parser (the `DocBuilder` class, whose file is not under `src/`):
scan the text as a sequence of lines and run the block state machine from
OUTSIDE_BLOCK. -/
def parse (s : Str) : List Node := parseLines (splitLines s) false none

theorem isPrefixOf_append_left (p l y : Str) (h : p.isPrefixOf l = true) :
    p.isPrefixOf (l ++ y) = true := by
  induction p generalizing l with
  | nil => simp [List.isPrefixOf]
  | cons a p ih =>
    cases l with
    | nil => simp [List.isPrefixOf] at h
    | cons b l2 =>
      simp only [List.isPrefixOf, Bool.and_eq_true, beq_iff_eq] at h
      simp only [List.cons_append, List.isPrefixOf, Bool.and_eq_true, beq_iff_eq]
      exact ⟨h.1, ih l2 h.2⟩

theorem containsSub_nil_pat (y : Str) : containsSub [] y = true := by
  cases y <;> simp [containsSub, List.isPrefixOf]

theorem containsSub_append_right (p x y : Str) (h : containsSub p y = true) :
    containsSub p (x ++ y) = true := by
  induction x with
  | nil => simpa using h
  | cons c t ih =>
    simp only [List.cons_append, containsSub, Bool.or_eq_true]
    exact Or.inr ih

theorem containsSub_append_left (p x y : Str) (h : containsSub p x = true) :
    containsSub p (x ++ y) = true := by
  induction x with
  | nil =>
    simp only [containsSub] at h
    cases p with
    | nil => simpa using containsSub_nil_pat y
    | cons a p2 => simp [List.isPrefixOf] at h
  | cons c t ih =>
    simp only [containsSub, Bool.or_eq_true] at h
    simp only [List.cons_append, containsSub, Bool.or_eq_true]
    rcases h with h | h
    · exact Or.inl (isPrefixOf_append_left _ _ _ h)
    · exact Or.inr (ih h)

theorem splitLines_spec (s : Str) :
    ∃ l ls, splitLines s = l :: ls ∧ (∃ v, s = l ++ v) ∧
      ∀ x ∈ ls, ∃ u v, s = u ++ (x ++ v) := by
  induction s with
  | nil => exact ⟨[], [], rfl, ⟨[], rfl⟩, by simp⟩
  | cons c t ih =>
    obtain ⟨l, ls, hsl, ⟨v0, hv0⟩, hmem⟩ := ih
    by_cases hc : c = '\n'
    · refine ⟨[], l :: ls, by simp [splitLines, hc, hsl], ⟨c :: t, rfl⟩, ?_⟩
      intro x hx
      rcases List.mem_cons.mp hx with rfl | hx2
      · exact ⟨[c], v0, by simp [hv0]⟩
      · obtain ⟨u, v, huv⟩ := hmem x hx2
        exact ⟨c :: u, v, by simp [huv]⟩
    · refine ⟨c :: l, ls, by simp [splitLines, hc, hsl], ⟨v0, by simp [hv0]⟩, ?_⟩
      intro x hx
      obtain ⟨u, v, huv⟩ := hmem x hx
      exact ⟨c :: u, v, by simp [huv]⟩

theorem parseLines_outside (ls : List Str)
    (h : ∀ l ∈ ls, containsSub startMarker l = false) :
    parseLines ls false none = [] := by
  induction ls with
  | nil => rfl
  | cons l ls ih =>
    have h1 := h l (by simp)
    have ih2 := ih (fun x hx => h x (by simp [hx]))
    simp [parseLines, h1, ih2]

/-- C8: a text containing no occurrence of the block-start marker parses
to the empty sequence of documentable nodes: no line of such a text
contains the marker, so the state machine never leaves OUTSIDE_BLOCK. -/
theorem C8_no_start_marker (s : Str) (h : containsSub startMarker s = false) :
    parse s = [] := by
  unfold parse
  apply parseLines_outside
  intro l hl
  cases hcl : containsSub startMarker l with
  | false => rfl
  | true =>
    exfalso
    obtain ⟨l0, ls0, hsl, ⟨v0, hv0⟩, hmem⟩ := splitLines_spec s
    rw [hsl] at hl
    rcases List.mem_cons.mp hl with rfl | hmem2
    · have h2 := containsSub_append_left startMarker l v0 hcl
      rw [← hv0] at h2
      rw [h2] at h
      cases h
    · obtain ⟨u, v, huv⟩ := hmem _ hmem2
      have h1 := containsSub_append_left startMarker l v hcl
      have h2 := containsSub_append_right startMarker u (l ++ v) h1
      rw [← huv] at h2
      rw [h2] at h
      cases h

/-- Witness for C8 at a concrete input with no block-start marker. -/
theorem C8_no_start_marker_witness :
    containsSub startMarker "const a = 1;\nconst b = 2;".data = false ∧
    parse "const a = 1;\nconst b = 2;".data = [] :=
  ⟨by decide, C8_no_start_marker _ (by decide)⟩
